import Mathlib

/-!
Verification of the demo-server access-control and session layer.

The definitions below are a shallow embedding of `demo_server/server.py`,
`demo_server/daemon.py` and `demo_server/cli.py`:

* bytes are `Fin 256`, byte strings are `List (Fin 256)`;
* `hashlib.pbkdf2_hmac("sha256", pw, salt, n)` is an abstract parameter
  `kdf : Kdf` applied as `kdf pw salt n`;
* the itsdangerous `URLSafeTimedSerializer` is modelled by `TokenWire`
  plus an abstract MAC parameter; `dumps`/`loads` mirror sign-then-check
  with the age test `now - ts > maxAge`;
* a Python call that can raise is a Lean function into `Option`, `none`
  standing for the raised exception;
* filesystem paths are lists of segments; `Path.resolve` (without
  symbolic links) is textual `..` normalisation; `str(p)` is `pathStr`.
-/

namespace DemoServer

abbrev Byte := Fin 256

/-- Low hexadecimal digit characters, as produced by Python `bytes.hex`. -/
def hexDigitChar (n : Fin 16) : Char :=
  if n.val < 10 then Char.ofNat (48 + n.val) else Char.ofNat (97 + (n.val - 10))

/-- Value of one hexadecimal character, upper or lower case, as accepted
by Python `bytes.fromhex`; `none` on a non-hex character. -/
def hexVal (c : Char) : Option (Fin 16) :=
  if h : 48 ≤ c.toNat ∧ c.toNat ≤ 57 then some ⟨c.toNat - 48, by omega⟩
  else if h : 97 ≤ c.toNat ∧ c.toNat ≤ 102 then some ⟨c.toNat - 97 + 10, by omega⟩
  else if h : 65 ≤ c.toNat ∧ c.toNat ≤ 70 then some ⟨c.toNat - 65 + 10, by omega⟩
  else none

/-- `bytes.hex` of a single byte: two lowercase hex characters. -/
def byteToHex (b : Byte) : List Char :=
  [hexDigitChar ⟨b.val / 16, by have := b.isLt; omega⟩,
   hexDigitChar ⟨b.val % 16, by have := b.isLt; omega⟩]

/-- `bytes.hex`: the concatenation of the per-byte hex pairs. -/
def bytesToHex : List Byte → List Char
  | [] => []
  | b :: bs => byteToHex b ++ bytesToHex bs

/-- `bytes.fromhex` on a character list: pairs of hex digits, `none`
(a raised `ValueError`) on odd length or a non-hex character. -/
def hexToBytes : List Char → Option (List Byte)
  | [] => some []
  | [_] => none
  | c1 :: c2 :: rest =>
    match hexVal c1, hexVal c2 with
    | some hi, some lo =>
      match hexToBytes rest with
      | some bs =>
        some (⟨hi.val * 16 + lo.val, by have := hi.isLt; have := lo.isLt; omega⟩ :: bs)
      | none => none
    | _, _ => none

/-- `bytes.hex` as a `String`. -/
def hexStr (bs : List Byte) : String := String.mk (bytesToHex bs)

/-- Whether every character of a string is ASCII (as required by
`secrets.compare_digest` on `str` arguments). -/
def allAscii (s : String) : Bool := s.data.all (fun c => c.toNat < 128)

/-- Python `s.startswith(pre)`. -/
def pyStartsWith (s pre : String) : Bool := pre.data.isPrefixOf s.data

/-- Python `s.endswith(suf)`. -/
def pyEndsWith (s suf : String) : Bool := suf.data.isSuffixOf s.data

/-- Python `s.split(sep)` for a one-character separator, on character
lists: splitting the empty string gives one empty group. -/
def splitChar (sep : Char) : List Char → List (List Char)
  | [] => [[]]
  | c :: rest =>
    match splitChar sep rest with
    | [] => [[]]
    | g :: gs => if c = sep then [] :: g :: gs else (c :: g) :: gs

/-- The ASCII characters Python `str.strip()` removes. -/
def isPySpace (c : Char) : Bool :=
  c = ' ' || c = '\t' || c = '\n' || c = '\r' || c = '\x0b' || c = '\x0c'

/-- Python `s.strip()` (restricted to ASCII whitespace). -/
def pyStrip (s : String) : String :=
  String.mk (((s.data.dropWhile isPySpace).reverse.dropWhile isPySpace).reverse)

/-- `secrets.compare_digest` on two `str` values: equality for ASCII
strings, `none` (a raised `TypeError`) when either is non-ASCII. -/
def compare_digest (a b : String) : Option Bool :=
  if allAscii a && allAscii b then some (a = b) else none

/-- `s.split(sep, 1)` when `sep` occurs: the parts before and after the
first occurrence; `none` when `sep` does not occur (so Python
`sep not in s` is exactly the `none` case). -/
def splitOnceAux (sep : Char) : List Char → Option (List Char × List Char)
  | [] => none
  | c :: rest =>
    if c = sep then some ([], rest)
    else
      match splitOnceAux sep rest with
      | some p => some (c :: p.1, p.2)
      | none => none

/-- `splitOnceAux` lifted to `String`. -/
def splitOnce (sep : Char) (s : String) : Option (String × String) :=
  match splitOnceAux sep s.data with
  | some p => some (String.mk p.1, String.mk p.2)
  | none => none

/-- The type of the key-derivation function
`hashlib.pbkdf2_hmac("sha256", passcode.encode(), salt, iterations)`,
kept abstract: passcode, salt, iteration count to derived key. -/
abbrev Kdf := String → List Byte → Nat → List Byte

/-- `hash_passcode` from `server.py`: `salt.hex() + ":" + h.hex()` where
`h = pbkdf2_hmac("sha256", passcode, salt, 100_000)`; the freshly drawn
16-byte random salt is the explicit `salt` argument. -/
def hash_passcode (kdf : Kdf) (salt : List Byte) (passcode : String) : String :=
  hexStr salt ++ ":" ++ hexStr (kdf passcode salt 100000)

/-- `verify_passcode` from `server.py`.  `none` models an uncaught
exception (`bytes.fromhex` on a non-hex salt part, or `compare_digest`
on non-ASCII input); `some b` is a normal return of `b`. -/
def verify_passcode (kdf : Kdf) (passcode stored : String) : Option Bool :=
  match splitOnce ':' stored with
  | none => compare_digest passcode stored
  | some parts =>
    match hexToBytes parts.1.data with
    | none => none
    | some salt => compare_digest (hexStr (kdf passcode salt 100000)) parts.2

/-- `AUTH_COOKIE_MAX_AGE` from `server.py` (24 hours). -/
def AUTH_COOKIE_MAX_AGE : Int := 86400

/-- The wire form of a session cookie value.  A well-formed itsdangerous
token carries a payload, a timestamp and a signature; `garbage` stands
for any other string (on which `serializer.loads` raises). -/
inductive TokenWire where
  | tok (payload : String) (ts : Int) (sig : String)
  | garbage (raw : String)
  deriving DecidableEq

/-- The abstract MAC underlying `URLSafeTimedSerializer`: secret,
payload and timestamp to signature. -/
abbrev Mac := String → String → Int → String

/-- `serializer.dumps(payload)` at time `ts`: sign payload and
timestamp with the process secret. -/
def dumps (mac : Mac) (secret payload : String) (ts : Int) : TokenWire :=
  .tok payload ts (mac secret payload ts)

/-- `serializer.loads(token, max_age=maxAge)` at time `now`, with every
failure (malformed token, signature mismatch, expiry `now - ts > maxAge`)
folded into `none`, as the `try/except` in `serve` does. -/
def loads (mac : Mac) (secret : String) (now maxAge : Int) : TokenWire → Option String
  | .garbage _ => none
  | .tok payload ts sig =>
    if sig = mac secret payload ts then
      if now - ts > maxAge then none else some payload
    else none

/-- The `RateLimiter` state from `server.py`: the constructor arguments
and the `_attempts` table (a `defaultdict(list)`, so a missing key reads
as `[]` in the initial table). -/
structure RateLimiter where
  max_attempts : Nat
  window : Int
  attempts : String → List Int

/-- Pointwise update of the `_attempts` table at one key. -/
def updateAttempts (f : String → List Int) (k : String) (v : List Int) :
    String → List Int :=
  fun k' => if k' = k then v else f k'

/-- `RateLimiter.is_limited`: prune entries with `now - t >= window`,
answer limited when the pruned count reaches `max_attempts` (recording
nothing), otherwise append `now` and answer not limited.  Returns the
answer together with the updated state. -/
def is_limited (rl : RateLimiter) (key : String) (now : Int) : Bool × RateLimiter :=
  let kept := (rl.attempts key).filter (fun t => now - t < rl.window)
  if rl.max_attempts ≤ kept.length then
    (true, ⟨rl.max_attempts, rl.window, updateAttempts rl.attempts key kept⟩)
  else
    (false, ⟨rl.max_attempts, rl.window, updateAttempts rl.attempts key (kept ++ [now])⟩)

/-- `RateLimiter()` with the default arguments `max_attempts=5`,
`window=60` and an empty table. -/
def rateLimiterInit : RateLimiter := ⟨5, 60, fun _ => []⟩

/-- The filesystem as the handlers observe it: `Path.is_dir`,
`Path.exists`, `Path.is_file` and `Path.read_text`, on absolute paths
given as segment lists. -/
structure Fs where
  isDir : List String → Bool
  pathExists : List String → Bool
  isFile : List String → Bool
  readText : List String → String

/-- The segments pathlib keeps from a path string: split on `/`, drop
empty and `.` segments (`..` is kept). -/
def relSegs (p : String) : List String :=
  ((splitChar '/' p.data).map String.mk).filter (fun seg => seg ≠ "" && seg ≠ ".")

/-- `Path(p).parts`: the anchor `/` for an absolute string, then the
kept segments. -/
def pyParts (p : String) : List String :=
  (if pyStartsWith p "/" then ["/"] else []) ++ relSegs p

/-- `module_dir / p` in pathlib: an absolute right operand replaces the
left one; otherwise the segments are appended. -/
def joinPath (dir : List String) (p : String) : List String :=
  if pyStartsWith p "/" then relSegs p else dir ++ relSegs p

/-- One pass of textual `..` elimination, left to right, popping at the
root like `Path.resolve` does. -/
def resolveAux (acc : List String) : List String → List String
  | [] => acc
  | seg :: rest =>
    if seg = ".." then resolveAux acc.dropLast rest
    else resolveAux (acc ++ [seg]) rest

/-- `Path.resolve()` on an absolute segment list (no symbolic links in
the model): textual `..` normalisation. -/
def resolvePath (segs : List String) : List String := resolveAux [] segs

/-- The characters of `segs` joined with `/` separators. -/
def joinSegsChars : List String → List Char
  | [] => []
  | [s] => s.data
  | s :: rest => s.data ++ '/' :: joinSegsChars rest

/-- `str(p)` for an absolute segment list. -/
def pathStr (segs : List String) : String := "/" ++ String.mk (joinSegsChars segs)

/-- The `path` rebinding at the top of `serve`: empty or `/`-terminated
paths get `index.html` appended. -/
def normPath (rawPath : String) : String :=
  if rawPath = "" ∨ pyEndsWith rawPath "/" then rawPath ++ "index.html" else rawPath

/-- The `value` computed by `serve` for the auth check: the module's
cookie if present, passed through `serializer.loads` with the failure
fold to `none`. -/
def authCookieValue (mac : Mac) (secret : String) (cookies : String → Option TokenWire)
    (now : Int) (module : String) : Option String :=
  match cookies ("auth_" ++ module) with
  | none => none
  | some c => loads mac secret now AUTH_COOKIE_MAX_AGE c

/-- The observable outcome of the `serve` handler. -/
inductive ServeResult where
  | notFound
  | forbidden
  | challenge
  | fileResponse (p : List String)
  deriving DecidableEq

/-- The `serve` handler (`GET /{module}/{path}`) from `server.py`,
step for step: module-directory check, `index.html` defaulting, hidden
segment and hidden module checks, credential/cookie check, traversal
prefix check, file existence check. -/
def serve (mac : Mac) (secret : String) (base : List String) (fs : Fs)
    (cookies : String → Option TokenWire) (now : Int)
    (module rawPath : String) : ServeResult :=
  let moduleDir := base ++ [module]
  if fs.isDir moduleDir = false then .notFound
  else
    let path := normPath rawPath
    if (pyParts path).any (fun part => pyStartsWith part ".") = true then .forbidden
    else if pyStartsWith module "." = true then .forbidden
    else if fs.pathExists (moduleDir ++ [".encrypt"]) = true ∧
        authCookieValue mac secret cookies now module ≠ some module then .challenge
    else
      let filePath := resolvePath (joinPath moduleDir path)
      if pyStartsWith (pathStr filePath) (pathStr moduleDir ++ "/") = false then .forbidden
      else if fs.isFile filePath = false then .notFound
      else .fileResponse filePath

/-- The observable outcome of the `auth` handler.  `redirect` records
the 303 target, the cookie name, the cookie value and the `httponly`
and `samesite` flags passed to `set_cookie`; `serverError` is an
uncaught exception escaping the handler. -/
inductive AuthResult where
  | notFound
  | rateLimited
  | wrongPasscode
  | redirect (target cookieName : String) (token : TokenWire)
      (httponly : Bool) (samesite : String)
  | serverError
  deriving DecidableEq

/-- The `auth` handler (`POST /{module}/__auth__`) from `server.py`:
404 when module directory or credential record is missing, then the
rate-limit gate, then `verify_passcode` on the stripped stored record,
then 403 or the cookie-setting 303 redirect.  Returns the outcome and
the limiter state after the request. -/
def auth (kdf : Kdf) (mac : Mac) (secret : String) (base : List String) (fs : Fs)
    (rl : RateLimiter) (clientIp module passcode : String) (now : Int) :
    AuthResult × RateLimiter :=
  let moduleDir := base ++ [module]
  let encryptFile := moduleDir ++ [".encrypt"]
  if fs.isDir moduleDir = false ∨ fs.pathExists encryptFile = false then (.notFound, rl)
  else
    let r := is_limited rl (clientIp ++ ":" ++ module) now
    if r.1 = true then (.rateLimited, r.2)
    else
      let stored := pyStrip (fs.readText encryptFile)
      match verify_passcode kdf passcode stored with
      | none => (.serverError, r.2)
      | some false => (.wrongPasscode, r.2)
      | some true =>
        (.redirect ("/" ++ module ++ "/") ("auth_" ++ module)
          (dumps mac secret module now) true "lax", r.2)

/-- Outcome of the liveness probe `os.kill(pid, 0)` in `daemon.py`. -/
inductive ProbeResult where
  | ok
  | processLookupError
  | permissionError
  deriving DecidableEq

/-- The process world `daemon_status` observes: the integer held by the
PID file when the file exists, and the probe outcome per PID. -/
structure ProcWorld where
  pidFileContents : Option Int
  kill0 : Int → ProbeResult

/-- `daemon_status` from `daemon.py`: `(None, False)` without a PID
file, else the probe with `ProcessLookupError` meaning dead and
`PermissionError` meaning alive under another user. -/
def daemon_status (w : ProcWorld) : Option Int × Bool :=
  match w.pidFileContents with
  | none => (none, false)
  | some pid =>
    match w.kill0 pid with
    | .ok => (some pid, true)
    | .processLookupError => (some pid, false)
    | .permissionError => (some pid, true)

/-- The `status` CLI command from `cli.py`, restricted to its effect on
the PID file: it unlinks the file exactly in the stale branch
(`pid` present and `running` false). -/
def cliStatus (w : ProcWorld) : ProcWorld :=
  match daemon_status w with
  | (none, _) => w
  | (some _, true) => w
  | (some _, false) => ⟨none, w.kill0⟩

/-! Concrete instances used to exhibit counterexamples and witnesses. -/

/-- A concrete MAC instance for concrete runs. -/
def macSample : Mac := fun secret payload _ts => secret ++ "|" ++ payload

/-- A concrete key-derivation instance for concrete runs: one byte
derived from the passcode length. -/
def kdfSample : Kdf := fun passcode _salt _n => [⟨passcode.length % 256, by omega⟩]

/-- A request carrying no cookies. -/
def noCookies : String → Option TokenWire := fun _ => none

/-- A base directory `/srv` holding one module directory `m` protected
by a credential record whose stored value is the legacy plaintext `pw`. -/
def fsProt : Fs :=
  ⟨fun p => decide (p = ["srv", "m"]),
   fun p => decide (p = ["srv", "m", ".encrypt"]),
   fun _ => false,
   fun _ => "pw"⟩

/-- A base directory `/srv` holding one unprotected module directory `m`
that contains only `index.html`. -/
def fsPlain : Fs :=
  ⟨fun p => decide (p = ["srv", "m"]),
   fun _ => false,
   fun p => decide (p = ["srv", "m", "index.html"]),
   fun _ => ""⟩

/-- Like `fsProt` but the stored credential record is the corrupt value
`g:g`, whose salt part is not valid hexadecimal. -/
def fsBadCred : Fs :=
  ⟨fun p => decide (p = ["srv", "m"]),
   fun p => decide (p = ["srv", "m", ".encrypt"]),
   fun _ => false,
   fun _ => "g:g"⟩

/-- A sequence of `is_limited` calls for one key at the given times,
threading the limiter state; returns the answers in order. -/
def runLimiter (key : String) : RateLimiter → List Int → List Bool × RateLimiter
  | rl, [] => ([], rl)
  | rl, t :: ts =>
    let r := is_limited rl key t
    let rest := runLimiter key r.2 ts
    (r.1 :: rest.1, rest.2)

/-- A sequence of `auth` requests from one client for one module at the
given times, threading the limiter state; returns the outcomes in
order. -/
def authSeq (kdf : Kdf) (mac : Mac) (secret : String) (base : List String) (fs : Fs)
    (clientIp module passcode : String) :
    RateLimiter → List Int → List AuthResult × RateLimiter
  | rl, [] => ([], rl)
  | rl, t :: ts =>
    let r := auth kdf mac secret base fs rl clientIp module passcode t
    let rest := authSeq kdf mac secret base fs clientIp module passcode r.2 ts
    (r.1 :: rest.1, rest.2)

/-- A world whose PID file holds 42 and whose process probe succeeds. -/
def worldRunning : ProcWorld := ⟨some 42, fun _ => .ok⟩

/-- A world whose PID file holds 42 but whose process is gone. -/
def worldStale : ProcWorld := ⟨some 42, fun _ => .processLookupError⟩

/-! Supporting lemmas about the hexadecimal encoding and the stored
credential format. -/

lemma hexVal_hexDigitChar : ∀ d : Fin 16, hexVal (hexDigitChar d) = some d := by decide

lemma hexDigitChar_ne_colon : ∀ d : Fin 16, hexDigitChar d ≠ ':' := by decide

lemma hexDigitChar_ascii : ∀ d : Fin 16, decide ((hexDigitChar d).toNat < 128) = true := by
  decide

lemma data_append (a b : String) : (a ++ b).data = a.data ++ b.data := rfl

lemma hexToBytes_byteToHex_append (b : Byte) (rest : List Char) :
    hexToBytes (byteToHex b ++ rest) =
      match hexToBytes rest with
      | some bs => some (b :: bs)
      | none => none := by
  show hexToBytes (hexDigitChar _ :: hexDigitChar _ :: rest) = _
  rw [hexToBytes]
  rw [hexVal_hexDigitChar, hexVal_hexDigitChar]
  have hb : b.val / 16 * 16 + b.val % 16 = b.val := by omega
  cases h : hexToBytes rest with
  | none => simp
  | some bs =>
    simp only
    congr 2
    apply Fin.ext
    show b.val / 16 * 16 + b.val % 16 = b.val
    exact hb

lemma hexToBytes_bytesToHex (bs : List Byte) :
    hexToBytes (bytesToHex bs) = some bs := by
  induction bs with
  | nil => rfl
  | cons b rest ih =>
    show hexToBytes (byteToHex b ++ bytesToHex rest) = _
    rw [hexToBytes_byteToHex_append, ih]

lemma colon_not_mem_byteToHex (b : Byte) : ':' ∉ byteToHex b := by
  rw [byteToHex]
  simp only [List.mem_cons, List.not_mem_nil, or_false]
  rintro (h | h)
  · exact hexDigitChar_ne_colon _ h.symm
  · exact hexDigitChar_ne_colon _ h.symm

lemma colon_not_mem_bytesToHex (bs : List Byte) : ':' ∉ bytesToHex bs := by
  induction bs with
  | nil => simp [bytesToHex]
  | cons b rest ih =>
    show ':' ∉ byteToHex b ++ bytesToHex rest
    intro hmem
    rcases List.mem_append.mp hmem with h | h
    · exact colon_not_mem_byteToHex b h
    · exact ih h

lemma allAscii_hexStr (bs : List Byte) : allAscii (hexStr bs) = true := by
  show (bytesToHex bs).all (fun c => decide (c.toNat < 128)) = true
  induction bs with
  | nil => rfl
  | cons b rest ih =>
    show (byteToHex b ++ bytesToHex rest).all _ = true
    rw [List.all_append, ih, Bool.and_true]
    show (hexDigitChar _ :: hexDigitChar _ :: []).all _ = true
    simp only [List.all_cons, List.all_nil, Bool.and_true]
    rw [hexDigitChar_ascii, hexDigitChar_ascii]
    rfl

lemma hexStr_injective (x y : List Byte) (h : hexStr x = hexStr y) : x = y := by
  have hd : bytesToHex x = bytesToHex y := congrArg String.data h
  have hx := hexToBytes_bytesToHex x
  rw [hd, hexToBytes_bytesToHex y] at hx
  exact (Option.some.inj hx).symm

lemma splitOnceAux_append (sep : Char) (l r : List Char) (h : sep ∉ l) :
    splitOnceAux sep (l ++ sep :: r) = some (l, r) := by
  induction l with
  | nil => simp [splitOnceAux]
  | cons c cs ih =>
    have hc : c ≠ sep := fun hc => h (hc ▸ List.mem_cons_self c cs)
    have hcs : sep ∉ cs := fun hm => h (List.mem_cons_of_mem _ hm)
    show splitOnceAux sep (c :: (cs ++ sep :: r)) = _
    rw [splitOnceAux, if_neg hc, ih hcs]

lemma splitOnce_hash (kdf : Kdf) (salt : List Byte) (passcode : String) :
    splitOnce ':' (hash_passcode kdf salt passcode) =
      some (hexStr salt, hexStr (kdf passcode salt 100000)) := by
  have hdata : (hash_passcode kdf salt passcode).data =
      bytesToHex salt ++ ':' :: bytesToHex (kdf passcode salt 100000) := by
    show (hexStr salt ++ ":" ++ hexStr (kdf passcode salt 100000)).data = _
    rw [data_append, data_append]
    show bytesToHex salt ++ [':'] ++ bytesToHex (kdf passcode salt 100000) = _
    rw [List.append_assoc]
    rfl
  rw [splitOnce, hdata, splitOnceAux_append _ _ _ (colon_not_mem_bytesToHex salt)]
  rfl

lemma compare_digest_hexStr_self (x : List Byte) :
    compare_digest (hexStr x) (hexStr x) = some true := by
  rw [compare_digest, allAscii_hexStr]
  simp

lemma compare_digest_hexStr_ne (x y : List Byte) (h : x ≠ y) :
    compare_digest (hexStr x) (hexStr y) = some false := by
  rw [compare_digest, allAscii_hexStr, allAscii_hexStr]
  simp only [Bool.and_self, if_pos, Option.some.injEq, decide_eq_false_iff_not]
  exact fun hs => h (hexStr_injective _ _ hs)

/-- C4: for every passcode `P` and every salt `hash_passcode` may draw,
`verify_passcode P (hash_passcode P)` returns true; for distinct
passcodes `P2 ≠ P` whose derived keys do not collide under
PBKDF2-HMAC-SHA256 at that salt, `verify_passcode P2 (hash_passcode P)`
returns false; and the stored form is
`hex(salt) + ":" + hex(pbkdf2_hmac_sha256(passcode, salt, 100000))`. -/
theorem passcode_hash_verify (kdf : Kdf) (salt : List Byte) (P : String) :
    verify_passcode kdf P (hash_passcode kdf salt P) = some true ∧
    (∀ P2, P2 ≠ P → kdf P2 salt 100000 ≠ kdf P salt 100000 →
      verify_passcode kdf P2 (hash_passcode kdf salt P) = some false) ∧
    hash_passcode kdf salt P = hexStr salt ++ ":" ++ hexStr (kdf P salt 100000) := by
  have hparse : hexToBytes (hexStr salt).data = some salt := hexToBytes_bytesToHex salt
  refine ⟨?_, ?_, rfl⟩
  · rw [verify_passcode, splitOnce_hash]
    show (match hexToBytes (hexStr salt).data with
      | none => none
      | some s => compare_digest (hexStr (kdf P s 100000)) (hexStr (kdf P salt 100000))) =
        some true
    rw [hparse]
    exact compare_digest_hexStr_self _
  · intro P2 _hne hkdf
    rw [verify_passcode, splitOnce_hash]
    show (match hexToBytes (hexStr salt).data with
      | none => none
      | some s => compare_digest (hexStr (kdf P2 s 100000)) (hexStr (kdf P salt 100000))) =
        some false
    rw [hparse]
    exact compare_digest_hexStr_ne _ _ hkdf

/-- Witness for C4 at a concrete key-derivation function, salt and pair
of passcodes. -/
theorem passcode_hash_verify_witness :
    verify_passcode kdfSample "a" (hash_passcode kdfSample [] "a") = some true ∧
    verify_passcode kdfSample "bb" (hash_passcode kdfSample [] "a") = some false :=
  ⟨(passcode_hash_verify kdfSample [] "a").1,
   (passcode_hash_verify kdfSample [] "a").2.1 "bb" (by decide) (by decide)⟩

/-- C2: when the module directory exists, a request whose normalized
path has a segment beginning with `.`, or whose module name begins with
`.`, is answered `FORBIDDEN` by `serve`; in particular
`/{module}/.encrypt` is `Forbidden` for every request, whatever cookies
it carries. -/
theorem serve_hidden_forbidden (mac : Mac) (secret : String) (base : List String) (fs : Fs)
    (cookies : String → Option TokenWire) (now : Int) (module rawPath : String)
    (hdir : fs.isDir (base ++ [module]) = true) :
    ((pyParts (normPath rawPath)).any (fun part => pyStartsWith part ".") = true ∨
        pyStartsWith module "." = true →
      serve mac secret base fs cookies now module rawPath = .forbidden) ∧
    serve mac secret base fs cookies now module ".encrypt" = .forbidden := by
  constructor
  · intro h
    simp only [serve]
    rw [if_neg (by simp [hdir])]
    rcases h with h | h
    · rw [if_pos h]
    · by_cases hany : (pyParts (normPath rawPath)).any (fun part => pyStartsWith part ".") = true
      · rw [if_pos hany]
      · rw [if_neg hany, if_pos h]
  · simp only [serve]
    rw [if_neg (by simp [hdir])]
    rw [if_pos (by decide :
      (pyParts (normPath ".encrypt")).any (fun part => pyStartsWith part ".") = true)]

/-- Witness for C2: the credential record itself is unreachable even on
a protected module. -/
theorem serve_hidden_forbidden_witness :
    serve macSample "sec" ["srv"] fsProt noCookies 0 "m" ".encrypt" = .forbidden :=
  (serve_hidden_forbidden macSample "sec" ["srv"] fsProt noCookies 0 "m" ".encrypt"
    (by decide)).2

/-- C3: on a protected module (credential record present), once the
request survives the hidden-name checks, every failure of the cookie
check — absent cookie, malformed cookie, wrong signature, token older
than 24 hours, or a token for another module — makes `serve` answer
`CHALLENGE`, and none of them escapes as an exception. -/
theorem serve_challenge_on_invalid_cookie (mac : Mac) (secret : String) (base : List String)
    (fs : Fs) (cookies : String → Option TokenWire) (now : Int) (module rawPath : String)
    (hdir : fs.isDir (base ++ [module]) = true)
    (hseg : (pyParts (normPath rawPath)).any (fun part => pyStartsWith part ".") = false)
    (hmod : pyStartsWith module "." = false)
    (henc : fs.pathExists ((base ++ [module]) ++ [".encrypt"]) = true) :
    (cookies ("auth_" ++ module) = none →
      serve mac secret base fs cookies now module rawPath = .challenge) ∧
    (∀ raw, cookies ("auth_" ++ module) = some (.garbage raw) →
      serve mac secret base fs cookies now module rawPath = .challenge) ∧
    (∀ payload ts sg, cookies ("auth_" ++ module) = some (.tok payload ts sg) →
      sg ≠ mac secret payload ts →
      serve mac secret base fs cookies now module rawPath = .challenge) ∧
    (∀ payload ts, cookies ("auth_" ++ module) = some (.tok payload ts (mac secret payload ts)) →
      now - ts > 86400 →
      serve mac secret base fs cookies now module rawPath = .challenge) ∧
    (∀ payload ts, cookies ("auth_" ++ module) = some (.tok payload ts (mac secret payload ts)) →
      ¬ now - ts > 86400 → payload ≠ module →
      serve mac secret base fs cookies now module rawPath = .challenge) := by
  have key : authCookieValue mac secret cookies now module ≠ some module →
      serve mac secret base fs cookies now module rawPath = .challenge := by
    intro hne
    simp only [serve]
    rw [if_neg (by simp [hdir]), if_neg (by simp [hseg]), if_neg (by simp [hmod]),
      if_pos ⟨henc, hne⟩]
  refine ⟨?_, ?_, ?_, ?_, ?_⟩
  · intro hcook
    apply key
    simp [authCookieValue, hcook]
  · intro raw hcook
    apply key
    simp [authCookieValue, hcook, loads]
  · intro payload ts sg hcook hsig
    apply key
    simp only [authCookieValue, hcook, loads]
    rw [if_neg hsig]
    simp
  · intro payload ts hcook hexp
    apply key
    simp only [authCookieValue, hcook, loads, AUTH_COOKIE_MAX_AGE]
    rw [if_pos trivial, if_pos hexp]
    simp
  · intro payload ts hcook hexp hp
    apply key
    simp only [authCookieValue, hcook, loads, AUTH_COOKIE_MAX_AGE]
    rw [if_pos trivial, if_neg hexp]
    simp [hp]

/-- Witness for C3: a cookieless request for an ordinary file of a
protected module is challenged. -/
theorem serve_challenge_on_invalid_cookie_witness :
    serve macSample "sec" ["srv"] fsProt noCookies 0 "m" "index.html" = .challenge :=
  (serve_challenge_on_invalid_cookie macSample "sec" ["srv"] fsProt noCookies 0 "m"
    "index.html" (by decide) (by decide) (by decide) (by decide)).1 rfl

/-- Counterexample to C1 as stated: on a protected module, a request
whose candidate path escapes the module root (an absolute `path` value,
which pathlib's join lets replace the module directory) is answered
`CHALLENGE`, not `FORBIDDEN` — the cookie check runs before the
containment check. -/
theorem serve_traversal_counterexample :
    pyStartsWith (pathStr (resolvePath (joinPath (["srv"] ++ ["m"]) (normPath "/etc/passwd"))))
        (pathStr (["srv"] ++ ["m"]) ++ "/") = false ∧
    serve macSample "sec" ["srv"] fsProt noCookies 0 "m" "/etc/passwd" =
      ServeResult.challenge ∧
    serve macSample "sec" ["srv"] fsProt noCookies 0 "m" "/etc/passwd" ≠
      ServeResult.forbidden := by
  decide

/-- C1 (amended): `serve` never returns the contents of a file outside
the module root — any served path extends the canonical module root and
its trailing separator; when the request reaches the containment check
(module directory exists, no hidden segment, hidden-module check passes,
and the cookie check passes whenever a credential record exists), a
candidate path that escapes the module root is answered `FORBIDDEN`;
and a `..` traversal such as `../../etc/passwd` is answered `FORBIDDEN`
(its first segment begins with `.`), so a sibling directory whose name
extends the module name is never reachable. -/
theorem serve_traversal_contained (mac : Mac) (secret : String) (base : List String)
    (fs : Fs) (cookies : String → Option TokenWire) (now : Int) (module : String) :
    (∀ rawPath p, serve mac secret base fs cookies now module rawPath = .fileResponse p →
      pyStartsWith (pathStr p) (pathStr (base ++ [module]) ++ "/") = true) ∧
    (∀ rawPath,
      fs.isDir (base ++ [module]) = true →
      (pyParts (normPath rawPath)).any (fun part => pyStartsWith part ".") = false →
      pyStartsWith module "." = false →
      (fs.pathExists ((base ++ [module]) ++ [".encrypt"]) = true →
        authCookieValue mac secret cookies now module = some module) →
      pyStartsWith (pathStr (resolvePath (joinPath (base ++ [module]) (normPath rawPath))))
        (pathStr (base ++ [module]) ++ "/") = false →
      serve mac secret base fs cookies now module rawPath = .forbidden) ∧
    (fs.isDir (base ++ [module]) = true →
      serve mac secret base fs cookies now module "../../etc/passwd" = .forbidden) := by
  refine ⟨?_, ?_, ?_⟩
  · intro rawPath p h
    simp only [serve] at h
    by_cases h1 : fs.isDir (base ++ [module]) = false
    · rw [if_pos h1] at h
      exact absurd h (by simp)
    rw [if_neg h1] at h
    by_cases h2 : (pyParts (normPath rawPath)).any (fun part => pyStartsWith part ".") = true
    · rw [if_pos h2] at h
      exact absurd h (by simp)
    rw [if_neg h2] at h
    by_cases h3 : pyStartsWith module "." = true
    · rw [if_pos h3] at h
      exact absurd h (by simp)
    rw [if_neg h3] at h
    by_cases h4 : fs.pathExists ((base ++ [module]) ++ [".encrypt"]) = true ∧
        authCookieValue mac secret cookies now module ≠ some module
    · rw [if_pos h4] at h
      exact absurd h (by simp)
    rw [if_neg h4] at h
    by_cases h5 : pyStartsWith
        (pathStr (resolvePath (joinPath (base ++ [module]) (normPath rawPath))))
        (pathStr (base ++ [module]) ++ "/") = false
    · rw [if_pos h5] at h
      exact absurd h (by simp)
    rw [if_neg h5] at h
    by_cases h6 : fs.isFile (resolvePath (joinPath (base ++ [module]) (normPath rawPath))) = false
    · rw [if_pos h6] at h
      exact absurd h (by simp)
    rw [if_neg h6] at h
    have hp : p = resolvePath (joinPath (base ++ [module]) (normPath rawPath)) :=
      (ServeResult.fileResponse.inj h).symm
    subst hp
    exact Bool.not_eq_false _ |>.mp h5
  · intro rawPath hdir hseg hmod hauth hesc
    simp only [serve]
    rw [if_neg (by simp [hdir]), if_neg (by simp [hseg]), if_neg (by simp [hmod]),
      if_neg (by rintro ⟨he, hv⟩; exact hv (hauth he)), if_pos hesc]
  · intro hdir
    simp only [serve]
    rw [if_neg (by simp [hdir])]
    rw [if_pos (by decide :
      (pyParts (normPath "../../etc/passwd")).any (fun part => pyStartsWith part ".") = true)]

/-- Witness for C1 (amended): on an unprotected module an
absolute-path escape is answered `FORBIDDEN`. -/
theorem serve_traversal_contained_witness :
    serve macSample "sec" ["srv"] fsPlain noCookies 0 "m" "/etc/passwd" = .forbidden :=
  (serve_traversal_contained macSample "sec" ["srv"] fsPlain noCookies 0 "m").2.1
    "/etc/passwd" (by decide) (by decide) (by decide)
    (fun h => absurd h (by decide)) (by decide)

/-- C5: a token issued for module `M` at time `t0` under a process
secret validates back to `M` under the same secret within `maxAge`
(86400) seconds of issuance, and is invalid strictly after. -/
theorem token_issue_validate (mac : Mac) (secret M : String) (t0 : Int) (d : Nat) :
    loads mac secret (t0 + d) 86400 (dumps mac secret M t0) =
      if d ≤ 86400 then some M else none := by
  simp only [dumps, loads]
  rw [if_pos trivial]
  have harith : t0 + (d : Int) - t0 = (d : Int) := by ring
  rw [harith]
  by_cases h : d ≤ 86400
  · rw [if_neg (show ¬ ((d : Int) > 86400) by omega), if_pos h]
  · rw [if_pos (show (d : Int) > 86400 by omega), if_neg h]

/-- C6: `is_limited` with the default `max_attempts=5`, `window=60`
answers limited exactly when the pruned history already holds five
timestamps, records the call only when not limited, and keeps the
pruned history otherwise; six rapid calls on a fresh limiter answer
`false` five times then `true`, and once the window has elapsed the key
is no longer limited. -/
theorem rate_limiter_window :
    (∀ (rl : RateLimiter) (key : String) (now : Int),
      rl.max_attempts = 5 → rl.window = 60 →
      ((is_limited rl key now).1 = true ↔
        5 ≤ ((rl.attempts key).filter (fun t => now - t < 60)).length) ∧
      ((is_limited rl key now).2.attempts key =
        if 5 ≤ ((rl.attempts key).filter (fun t => now - t < 60)).length then
          (rl.attempts key).filter (fun t => now - t < 60)
        else (rl.attempts key).filter (fun t => now - t < 60) ++ [now])) ∧
    (runLimiter "k" rateLimiterInit [0, 0, 0, 0, 0, 0]).1 =
      [false, false, false, false, false, true] ∧
    (is_limited (runLimiter "k" rateLimiterInit [0, 0, 0, 0, 0, 0]).2 "k" 60).1 = false := by
  refine ⟨?_, by decide, by decide⟩
  rintro ⟨ma, w, att⟩ key now hm hw
  simp only at hm hw
  subst hm
  subst hw
  simp only [is_limited]
  by_cases h : 5 ≤ ((att key).filter (fun t => now - t < 60)).length
  · rw [if_pos h, if_pos h]
    simp [updateAttempts, h]
  · rw [if_neg h, if_neg h]
    simp [updateAttempts, h]

/-- Witness for C6: one concrete `is_limited` step on the fresh
limiter. -/
theorem rate_limiter_window_witness :
    (is_limited rateLimiterInit "k" 5).1 = true ↔
      5 ≤ ((rateLimiterInit.attempts "k").filter (fun t => (5 : Int) - t < 60)).length :=
  (rate_limiter_window.1 rateLimiterInit "k" 5 rfl rfl).1

/-- Counterexample to C7 as stated: with module and credential record
present and the limiter clear, a stored credential whose salt part is
not valid hexadecimal makes `verify_passcode` raise, so the handler
yields neither the 403 page nor the redirect but an uncaught error. -/
theorem auth_branches_counterexample :
    fsBadCred.isDir (["srv"] ++ ["m"]) = true ∧
    fsBadCred.pathExists ((["srv"] ++ ["m"]) ++ [".encrypt"]) = true ∧
    (is_limited rateLimiterInit "1.2.3.4:m" 0).1 = false ∧
    (auth kdfSample macSample "sec" ["srv"] fsBadCred rateLimiterInit
        "1.2.3.4" "m" "pw" 0).1 = AuthResult.serverError ∧
    AuthResult.serverError ≠ AuthResult.wrongPasscode := by
  decide

/-- C7 (amended): the `auth` handler answers 404 when module directory
or credential record is absent; 429 when the limiter reports the key
`client:module` limited, without depending on the stored credential or
the submitted passcode; 403 when `verify_passcode` returns false; the
cookie-setting 303 redirect to the module root when it returns true;
and when `verify_passcode` raises (corrupt stored credential) the
exception escapes instead of a 403 or redirect. -/
theorem auth_branches (kdf : Kdf) (mac : Mac) (secret : String) (base : List String)
    (fs : Fs) (rl : RateLimiter) (clientIp module passcode : String) (now : Int) :
    (fs.isDir (base ++ [module]) = false ∨
        fs.pathExists ((base ++ [module]) ++ [".encrypt"]) = false →
      auth kdf mac secret base fs rl clientIp module passcode now = (.notFound, rl)) ∧
    (fs.isDir (base ++ [module]) = true →
      fs.pathExists ((base ++ [module]) ++ [".encrypt"]) = true →
      ((is_limited rl (clientIp ++ ":" ++ module) now).1 = true →
        auth kdf mac secret base fs rl clientIp module passcode now =
          (.rateLimited, (is_limited rl (clientIp ++ ":" ++ module) now).2)) ∧
      ((is_limited rl (clientIp ++ ":" ++ module) now).1 = false →
        (verify_passcode kdf passcode
            (pyStrip (fs.readText ((base ++ [module]) ++ [".encrypt"]))) = some false →
          auth kdf mac secret base fs rl clientIp module passcode now =
            (.wrongPasscode, (is_limited rl (clientIp ++ ":" ++ module) now).2)) ∧
        (verify_passcode kdf passcode
            (pyStrip (fs.readText ((base ++ [module]) ++ [".encrypt"]))) = some true →
          auth kdf mac secret base fs rl clientIp module passcode now =
            (.redirect ("/" ++ module ++ "/") ("auth_" ++ module)
              (dumps mac secret module now) true "lax",
             (is_limited rl (clientIp ++ ":" ++ module) now).2)) ∧
        (verify_passcode kdf passcode
            (pyStrip (fs.readText ((base ++ [module]) ++ [".encrypt"]))) = none →
          auth kdf mac secret base fs rl clientIp module passcode now =
            (.serverError, (is_limited rl (clientIp ++ ":" ++ module) now).2)))) := by
  constructor
  · intro h
    simp only [auth]
    rw [if_pos]
    rcases h with h | h
    · exact Or.inl h
    · exact Or.inr h
  · intro hdir henc
    have hne : ¬ (fs.isDir (base ++ [module]) = false ∨
        fs.pathExists ((base ++ [module]) ++ [".encrypt"]) = false) := by
      rintro (h | h)
      · rw [hdir] at h
        exact absurd h (by simp)
      · rw [henc] at h
        exact absurd h (by simp)
    refine ⟨?_, ?_⟩
    · intro hlim
      simp only [auth]
      rw [if_neg hne, if_pos hlim]
    · intro hnl
      refine ⟨?_, ?_, ?_⟩ <;> intro hv <;> simp only [auth] <;>
        rw [if_neg hne, if_neg (by simp [hnl]), hv]

/-- Witness for C7 (amended): a correct passcode against the legacy
plaintext credential yields the cookie-setting redirect. -/
theorem auth_branches_witness :
    auth kdfSample macSample "sec" ["srv"] fsProt rateLimiterInit "1.2.3.4" "m" "pw" 0 =
      (.redirect "/m/" "auth_m" (dumps macSample "sec" "m" 0) true "lax",
       (is_limited rateLimiterInit "1.2.3.4:m" 0).2) :=
  (((auth_branches kdfSample macSample "sec" ["srv"] fsProt rateLimiterInit
      "1.2.3.4" "m" "pw" 0).2 (by decide) (by decide)).2 (by decide)).2.1 (by decide)

/-- Counterexample to C8 as stated: `verify_passcode` applied to the
stored credential string `g:g` raises (`bytes.fromhex` fails on the
salt part `g`), and the exception escapes the `auth` handler. -/
theorem no_uncaught_exception_counterexample :
    verify_passcode kdfSample "pw" "g:g" = none ∧
    (auth kdfSample macSample "sec" ["srv"] fsBadCred rateLimiterInit
        "9.9.9.9" "m" "pw" 0).1 = AuthResult.serverError := by
  decide

/-- C8 (amended): the `serve` handler folds every failure into one of
its four responses; `verify_passcode` completes without exception on
any ASCII legacy (colon-free) credential with an ASCII passcode and on
any credential produced by `hash_passcode`; and the `auth` handler
propagates an uncaught exception only when `verify_passcode` raises on
the stored credential — which a credential whose salt part is not valid
hexadecimal can make happen. -/
theorem handlers_recover_failures :
    (∀ (mac : Mac) (secret : String) (base : List String) (fs : Fs)
        (cookies : String → Option TokenWire) (now : Int) (module rawPath : String),
      serve mac secret base fs cookies now module rawPath = .notFound ∨
      serve mac secret base fs cookies now module rawPath = .forbidden ∨
      serve mac secret base fs cookies now module rawPath = .challenge ∨
      ∃ p, serve mac secret base fs cookies now module rawPath = .fileResponse p) ∧
    (∀ (kdf : Kdf) (passcode stored : String), splitOnce ':' stored = none →
      allAscii passcode = true → allAscii stored = true →
      ∃ b, verify_passcode kdf passcode stored = some b) ∧
    (∀ (kdf : Kdf) (salt : List Byte) (P P2 : String),
      ∃ b, verify_passcode kdf P2 (hash_passcode kdf salt P) = some b) ∧
    (∀ (kdf : Kdf) (mac : Mac) (secret : String) (base : List String) (fs : Fs)
        (rl : RateLimiter) (clientIp module passcode : String) (now : Int),
      (auth kdf mac secret base fs rl clientIp module passcode now).1 = .serverError →
      verify_passcode kdf passcode
        (pyStrip (fs.readText ((base ++ [module]) ++ [".encrypt"]))) = none) := by
  refine ⟨?_, ?_, ?_, ?_⟩
  · intro mac secret base fs cookies now module rawPath
    simp only [serve]
    split
    · simp
    split
    · simp
    split
    · simp
    split
    · simp
    split
    · simp
    split
    · simp
    · exact Or.inr (Or.inr (Or.inr ⟨_, rfl⟩))
  · intro kdf passcode stored hsp ha hb
    simp only [verify_passcode, hsp, compare_digest, ha, hb, Bool.and_self]
    exact ⟨_, rfl⟩
  · intro kdf salt P P2
    rw [verify_passcode, splitOnce_hash]
    show (∃ b, (match hexToBytes (hexStr salt).data with
      | none => none
      | some s => compare_digest (hexStr (kdf P2 s 100000)) (hexStr (kdf P salt 100000))) =
        some b)
    rw [show hexToBytes (hexStr salt).data = some salt from hexToBytes_bytesToHex salt]
    show ∃ b, compare_digest (hexStr (kdf P2 salt 100000)) (hexStr (kdf P salt 100000)) = some b
    rw [compare_digest, allAscii_hexStr, allAscii_hexStr]
    exact ⟨_, rfl⟩
  · intro kdf mac secret base fs rl clientIp module passcode now h
    simp only [auth] at h
    by_cases h1 : fs.isDir (base ++ [module]) = false ∨
        fs.pathExists ((base ++ [module]) ++ [".encrypt"]) = false
    · rw [if_pos h1] at h
      exact absurd h (by simp)
    rw [if_neg h1] at h
    by_cases h2 : (is_limited rl (clientIp ++ ":" ++ module) now).1 = true
    · rw [if_pos h2] at h
      exact absurd h (by simp)
    rw [if_neg h2] at h
    cases hv : verify_passcode kdf passcode
        (pyStrip (fs.readText ((base ++ [module]) ++ [".encrypt"]))) with
    | none => rfl
    | some b =>
      rw [hv] at h
      cases b
      · exact absurd h (by simp)
      · exact absurd h (by simp)

/-- Witness for C8 (amended): a legacy plaintext credential is verified
without an exception. -/
theorem handlers_recover_failures_witness :
    ∃ b, verify_passcode kdfSample "guess" "pw" = some b :=
  handlers_recover_failures.2.1 kdfSample "guess" "pw" (by decide) (by decide) (by decide)

/-- C9: `daemon_status` answers `(None, false)` without a PID file,
`(pid, false)` when the probe raises `ProcessLookupError`, `(pid, true)`
when it raises `PermissionError` and `(pid, true)` when it succeeds;
and the CLI `status` command removes the PID file exactly when the
returned state is a stale file (pid present, running false). -/
theorem daemon_status_spec (w : ProcWorld) :
    (w.pidFileContents = none → daemon_status w = (none, false)) ∧
    (∀ pid, w.pidFileContents = some pid →
      (w.kill0 pid = .processLookupError → daemon_status w = (some pid, false)) ∧
      (w.kill0 pid = .permissionError → daemon_status w = (some pid, true)) ∧
      (w.kill0 pid = .ok → daemon_status w = (some pid, true))) ∧
    (((cliStatus w).pidFileContents = none ∧ w.pidFileContents ≠ none) ↔
      ∃ pid, w.pidFileContents = some pid ∧ (daemon_status w).2 = false) := by
  obtain ⟨pf, k0⟩ := w
  refine ⟨?_, ?_, ?_⟩
  · intro h
    simp only at h
    subst h
    rfl
  · intro pid h
    simp only at h
    subst h
    refine ⟨?_, ?_, ?_⟩ <;> intro hk <;> simp only at hk <;> simp [daemon_status, hk]
  · cases pf with
    | none => simp [daemon_status, cliStatus]
    | some pid =>
      cases hk : k0 pid with
      | ok => simp [daemon_status, cliStatus, hk]
      | processLookupError => simp [daemon_status, cliStatus, hk]
      | permissionError => simp [daemon_status, cliStatus, hk]

/-- Witness for C9: a live world and a stale world, the latter's PID
file removed by the CLI `status` command. -/
theorem daemon_status_spec_witness :
    daemon_status worldRunning = (some 42, true) ∧
    daemon_status worldStale = (some 42, false) ∧
    (cliStatus worldStale).pidFileContents = none :=
  ⟨((daemon_status_spec worldRunning).2.1 42 rfl).2.2 rfl,
   ((daemon_status_spec worldStale).2.1 42 rfl).1 rfl,
   ((daemon_status_spec worldStale).2.2.mpr ⟨42, rfl, by decide⟩).1⟩

/-- C10: once past the 404 check, the `auth` handler's limiter state is
exactly the state `is_limited` leaves — the attempt is consumed before
and regardless of passcode verification, and on a non-limited call the
current timestamp is appended to the pruned history; concretely, five
successful authentications by one client for one module at time 0 make
that client's sixth submission within the window rate-limited. -/
theorem auth_consumes_attempt (kdf : Kdf) (mac : Mac) (secret : String)
    (base : List String) (fs : Fs) (rl : RateLimiter)
    (clientIp module passcode : String) (now : Int)
    (hdir : fs.isDir (base ++ [module]) = true)
    (henc : fs.pathExists ((base ++ [module]) ++ [".encrypt"]) = true) :
    ((auth kdf mac secret base fs rl clientIp module passcode now).2 =
      (is_limited rl (clientIp ++ ":" ++ module) now).2) ∧
    ((is_limited rl (clientIp ++ ":" ++ module) now).1 = false →
      (auth kdf mac secret base fs rl clientIp module passcode now).2.attempts
          (clientIp ++ ":" ++ module) =
        ((rl.attempts (clientIp ++ ":" ++ module)).filter
          (fun t => now - t < rl.window)) ++ [now]) ∧
    (authSeq kdfSample macSample "sec" ["srv"] fsProt "1.2.3.4" "m" "pw"
        rateLimiterInit [0, 0, 0, 0, 0, 0]).1 =
      [.redirect "/m/" "auth_m" (dumps macSample "sec" "m" 0) true "lax",
       .redirect "/m/" "auth_m" (dumps macSample "sec" "m" 0) true "lax",
       .redirect "/m/" "auth_m" (dumps macSample "sec" "m" 0) true "lax",
       .redirect "/m/" "auth_m" (dumps macSample "sec" "m" 0) true "lax",
       .redirect "/m/" "auth_m" (dumps macSample "sec" "m" 0) true "lax",
       .rateLimited] := by
  have hne : ¬ (fs.isDir (base ++ [module]) = false ∨
      fs.pathExists ((base ++ [module]) ++ [".encrypt"]) = false) := by
    rintro (h | h)
    · rw [hdir] at h
      exact absurd h (by simp)
    · rw [henc] at h
      exact absurd h (by simp)
  have hstate : (auth kdf mac secret base fs rl clientIp module passcode now).2 =
      (is_limited rl (clientIp ++ ":" ++ module) now).2 := by
    simp only [auth]
    rw [if_neg hne]
    by_cases hl : (is_limited rl (clientIp ++ ":" ++ module) now).1 = true
    · rw [if_pos hl]
    · rw [if_neg hl]
      cases hv : verify_passcode kdf passcode
          (pyStrip (fs.readText ((base ++ [module]) ++ [".encrypt"]))) with
      | none => rfl
      | some b => cases b <;> rfl
  refine ⟨hstate, ?_, by decide⟩
  intro hnl
  rw [hstate]
  simp only [is_limited]
  rw [if_neg (show ¬ rl.max_attempts ≤
    ((rl.attempts (clientIp ++ ":" ++ module)).filter
      (fun t => now - t < rl.window)).length by
    intro hc
    have : (is_limited rl (clientIp ++ ":" ++ module) now).1 = true := by
      simp only [is_limited]
      rw [if_pos hc]
    rw [this] at hnl
    exact absurd hnl (by simp))]
  simp [updateAttempts]

/-- Witness for C10: after one non-limited successful authentication
the fresh limiter's history for the key holds the call's timestamp. -/
theorem auth_consumes_attempt_witness :
    (auth kdfSample macSample "sec" ["srv"] fsProt rateLimiterInit
        "1.2.3.4" "m" "pw" 0).2.attempts "1.2.3.4:m" = [0] :=
  (auth_consumes_attempt kdfSample macSample "sec" ["srv"] fsProt rateLimiterInit
    "1.2.3.4" "m" "pw" 0 (by decide) (by decide)).2.1 (by decide)

end DemoServer
